import Mathlib

/-!
Verification of the asset-management core of the `amethyst` repository
(`src/amethyst_assets/src/`), as a shallow embedding in Lean.

Conventions used throughout:
* `LoadHandle` (a dense slotmap key in the source) is modelled as `Nat`.
* The slotmap `SecondaryMap<LoadHandle, AssetState<A>>` is modelled as a
  partial map `Nat → Option (AssetState A)`.
* The lock-free `SegQueue` is FIFO: `push` appends at the tail, `try_pop`
  takes the head; it is modelled as a `List` with those operations.
* `version` is a `u32` in the source; it is modelled as a `Nat` kept below
  2^32 by performing the source's `version + 1` with explicit wrap-around
  (`% 4294967296`), the release-build semantics of Rust `u32` addition. (A
  debug build would panic at the same point instead of wrapping; under
  either semantics the counter does not behave as an unbounded `Nat`.)
-/

namespace Amethyst

abbrev LoadHandle := Nat

/-- Rust `AssetState<A>` (new_storage.rs): the per-slot record
`{ version: u32, asset: A }`. The `u32` field is a `Nat` whose only
arithmetic, in `update_asset`, wraps modulo 2^32. -/
structure AssetState (A : Type) where
  version : Nat
  asset : A
deriving DecidableEq, Repr

/-- Rust `AssetStorage<A>` (new_storage.rs): a slotmap from `LoadHandle` to
`AssetState<A>` plus the deferred-drop queue `to_drop: SegQueue<A>`. -/
structure AssetStorage (A : Type) where
  assets : LoadHandle → Option (AssetState A)
  to_drop : List A

namespace AssetStorage

/-- Rust `AssetStorage::default` / `AssetStorage::new` (new_storage.rs):
empty slotmap, empty drop queue. -/
def empty (A : Type) : AssetStorage A :=
  { assets := fun _ => none, to_drop := [] }

/-- Rust `AssetStorage::update_asset` (new_storage.rs lines 47-58):
```
let mut version = 0;
if let Some(data) = self.assets.remove(*handle) {
    self.to_drop.push(data.asset);
    version = data.version;
}
self.assets.insert(*handle, AssetState { version: version + 1, asset });
```
The `version + 1` is `u32` addition and wraps modulo 2^32 in a release
build (a debug build panics at `u32::MAX`). -/
def update_asset {A : Type} (s : AssetStorage A) (handle : LoadHandle) (asset : A) :
    AssetStorage A :=
  let removed := s.assets handle
  let version : Nat :=
    match removed with
    | some data => data.version
    | none => 0
  let to_drop' : List A :=
    match removed with
    | some data => s.to_drop ++ [data.asset]
    | none => s.to_drop
  { assets := fun h =>
      if h = handle then some ⟨(version + 1) % 4294967296, asset⟩ else s.assets h
    to_drop := to_drop' }

/-- Rust `AssetStorage::is_loaded` (new_storage.rs line 88): slot occupancy,
`self.assets.contains_key(*handle.get_load_handle())`. -/
def is_loaded {A : Type} (s : AssetStorage A) (handle : LoadHandle) : Bool :=
  (s.assets handle).isSome

/-- Rust `AssetStorage::get` (new_storage.rs line 93):
`self.assets.get(..).map(|a| &a.asset)`. -/
def get {A : Type} (s : AssetStorage A) (handle : LoadHandle) : Option A :=
  (s.assets handle).map (·.asset)

/-- Rust `AssetStorage::get_mut` (new_storage.rs line 98): same lookup as `get`,
returning the asset behind a mutable borrow. -/
def get_mut {A : Type} (s : AssetStorage A) (handle : LoadHandle) : Option A :=
  (s.assets handle).map (·.asset)

/-- Rust `AssetStorage::get_version` (new_storage.rs line 102):
`self.assets.get(..).map(|a| a.version)`. -/
def get_version {A : Type} (s : AssetStorage A) (handle : LoadHandle) : Option Nat :=
  (s.assets handle).map (·.version)

/-- Rust `AssetStorage::get_asset_with_version` (new_storage.rs line 106):
`self.assets.get(..).map(|a| (&a.asset, a.version))`. -/
def get_asset_with_version {A : Type} (s : AssetStorage A) (handle : LoadHandle) :
    Option (A × Nat) :=
  (s.assets handle).map (fun a => (a.asset, a.version))

/-- Rust `AssetStorage::process_custom_drop` (new_storage.rs lines 112-121):
drains `to_drop`, invoking the drop callback per removed asset. The callback
cannot touch the storage, so the state effect is emptying `to_drop`. -/
def process_custom_drop {A : Type} (s : AssetStorage A) : AssetStorage A :=
  { assets := s.assets, to_drop := [] }

/-- Mutation through the `&mut A` borrow returned by `get_mut`: the caller may
replace the asset value in place but has no access to the slot's `version`
field or to any other slot. -/
def modify_through_get_mut {A : Type} (s : AssetStorage A) (handle : LoadHandle)
    (g : A → A) : AssetStorage A :=
  { assets := fun h =>
      if h = handle then (s.assets h).map (fun st => ⟨st.version, g st.asset⟩)
      else s.assets h
    to_drop := s.to_drop }

end AssetStorage

/-- One mutating call on an `AssetStorage` (`update_asset`, a mutation through
`get_mut`, or `process_custom_drop`; `get`/`get_version`/`is_loaded` are
read-only). -/
inductive StorageStep (A : Type) : AssetStorage A → AssetStorage A → Prop
  | update (s : AssetStorage A) (h : LoadHandle) (a : A) :
      StorageStep A s (s.update_asset h a)
  | mutate (s : AssetStorage A) (h : LoadHandle) (g : A → A) :
      StorageStep A s (s.modify_through_get_mut h g)
  | sweep (s : AssetStorage A) :
      StorageStep A s s.process_custom_drop

/-- A storage state reachable from a fresh `AssetStorage::new()` by any
sequence of mutating calls. -/
def StorageReachable {A : Type} (s : AssetStorage A) : Prop :=
  Relation.ReflTransGen (StorageStep A) (AssetStorage.empty A) s

/-- Pointwise description of the slotmap after `update_asset`. -/
theorem update_asset_assets {A : Type} (s : AssetStorage A) (handle : LoadHandle)
    (asset : A) (h : LoadHandle) :
    (s.update_asset handle asset).assets h =
      if h = handle then
        some ⟨((match s.assets handle with
                | some d => d.version
                | none => 0) + 1) % 4294967296, asset⟩
      else s.assets h := rfl

/-- The drop queue after `update_asset`. -/
theorem update_asset_to_drop {A : Type} (s : AssetStorage A) (handle : LoadHandle)
    (asset : A) :
    (s.update_asset handle asset).to_drop =
      match s.assets handle with
      | some d => s.to_drop ++ [d.asset]
      | none => s.to_drop := rfl

/-- Pointwise description of the slotmap after a `get_mut` mutation. -/
theorem modify_assets {A : Type} (s : AssetStorage A) (handle : LoadHandle)
    (g : A → A) (h : LoadHandle) :
    (s.modify_through_get_mut handle g).assets h =
      if h = handle then (s.assets h).map (fun st => ⟨st.version, g st.asset⟩)
      else s.assets h := rfl

/-- Storage state paired with the number of `update_asset` calls made on
each handle so far, tracking where the slot's `u32` version counter
stands. -/
structure Tracked (A : Type) where
  storage : AssetStorage A
  counts : LoadHandle → Nat

/-- One mutating call, instrumented with the per-handle update count. -/
inductive TrackedStep (A : Type) : Tracked A → Tracked A → Prop
  | update (p : Tracked A) (h : LoadHandle) (a : A) :
      TrackedStep A p ⟨p.storage.update_asset h a,
        fun h' => if h' = h then p.counts h' + 1 else p.counts h'⟩
  | mutate (p : Tracked A) (h : LoadHandle) (g : A → A) :
      TrackedStep A p ⟨p.storage.modify_through_get_mut h g, p.counts⟩
  | sweep (p : Tracked A) :
      TrackedStep A p ⟨p.storage.process_custom_drop, p.counts⟩

/-- Tracked states reachable from a fresh `AssetStorage::new()`; their
storage components are exactly the states of `StorageReachable`. -/
def TrackedReachable {A : Type} (p : Tracked A) : Prop :=
  Relation.ReflTransGen (TrackedStep A) ⟨AssetStorage.empty A, fun _ => 0⟩ p

/-- Update counts never decrease along a step. -/
theorem trackedStep_counts_mono {A : Type} {p q : Tracked A}
    (hs : TrackedStep A p q) (h : LoadHandle) : p.counts h ≤ q.counts h := by
  cases hs with
  | update h' a =>
    show p.counts h ≤ if h = h' then p.counts h + 1 else p.counts h
    by_cases hh : h = h'
    · rw [if_pos hh]
      omega
    · rw [if_neg hh]
  | mutate h' g => exact le_refl _
  | sweep => exact le_refl _

/-- Update counts never decrease along any sequence of calls. -/
theorem trackedReach_counts_mono {A : Type} {p q : Tracked A}
    (hr : Relation.ReflTransGen (TrackedStep A) p q) (h : LoadHandle) :
    p.counts h ≤ q.counts h := by
  induction hr with
  | refl => exact le_refl _
  | tail hr2 hstep ih => exact le_trans ih (trackedStep_counts_mono hstep h)

/-- Invariant relating the stored `u32` version to the update count: a slot
absent from the map has never been updated; an occupied slot has been
updated at least once and stores exactly its update count modulo 2^32. -/
theorem tracked_invariant {A : Type} (p : Tracked A) (hreach : TrackedReachable p)
    (h : LoadHandle) :
    (p.storage.assets h = none → p.counts h = 0) ∧
    (∀ st : AssetState A, p.storage.assets h = some st →
      1 ≤ p.counts h ∧ st.version = p.counts h % 4294967296) := by
  induction hreach with
  | refl =>
    constructor
    · intro _
      rfl
    · intro st hst
      simp [AssetStorage.empty] at hst
  | @tail b c hr hstep ih =>
    cases hstep with
    | update h' a =>
      dsimp only
      by_cases hh : h = h'
      · subst hh
        constructor
        · intro hnone
          rw [update_asset_assets, if_pos rfl] at hnone
          exact absurd hnone (by simp)
        · intro st hst
          rw [update_asset_assets, if_pos rfl] at hst
          rw [if_pos rfl]
          cases hb : b.storage.assets h with
          | some stb =>
            obtain ⟨h1b, h2b⟩ := ih.2 stb hb
            rw [hb] at hst
            have hst2 : (stb.version + 1) % 4294967296 = st.version := by
              have h3 := congrArg (fun o => Option.map AssetState.version o) hst
              simpa using h3
            refine ⟨by omega, ?_⟩
            rw [← hst2, h2b]
            omega
          | none =>
            have hc0 := ih.1 hb
            rw [hb] at hst
            have hst2 : (0 + 1) % 4294967296 = st.version := by
              have h3 := congrArg (fun o => Option.map AssetState.version o) hst
              simpa using h3
            refine ⟨by omega, ?_⟩
            rw [← hst2, hc0]
      · constructor
        · intro hnone
          rw [update_asset_assets, if_neg hh] at hnone
          rw [if_neg hh]
          exact ih.1 hnone
        · intro st hst
          rw [update_asset_assets, if_neg hh] at hst
          rw [if_neg hh]
          exact ih.2 st hst
    | mutate h' g =>
      dsimp only
      by_cases hh : h = h'
      · constructor
        · intro hnone
          rw [modify_assets, if_pos hh] at hnone
          cases hb : b.storage.assets h with
          | some stb =>
            rw [hb] at hnone
            simp at hnone
          | none => exact ih.1 hb
        · intro st hst
          rw [modify_assets, if_pos hh] at hst
          cases hb : b.storage.assets h with
          | some stb =>
            rw [hb] at hst
            obtain ⟨h1, h2⟩ := ih.2 stb hb
            have hst2 : stb.version = st.version := by
              have h3 := congrArg (fun o => Option.map AssetState.version o) hst
              simpa using h3
            refine ⟨h1, ?_⟩
            rw [← hst2]
            exact h2
          | none =>
            rw [hb] at hst
            simp at hst
      · constructor
        · intro hnone
          rw [modify_assets, if_neg hh] at hnone
          exact ih.1 hnone
        · intro st hst
          rw [modify_assets, if_neg hh] at hst
          exact ih.2 st hst
    | sweep =>
      exact ih

/-- Hot-reloading handle 0 of a fresh storage `n` times over. -/
def updIter : Nat → AssetStorage Nat
  | 0 => AssetStorage.empty Nat
  | n + 1 => (updIter n).update_asset 0 7

/-- Every iterate is a reachable storage state. -/
theorem updIter_reachable : ∀ n : Nat, StorageReachable (updIter n)
  | 0 => Relation.ReflTransGen.refl
  | n + 1 =>
    Relation.ReflTransGen.tail (updIter_reachable n) (StorageStep.update (updIter n) 0 7)

/-- After `n + 1` replacements, slot 0 stores version `(n + 1) % 2^32`: the
`u32` counter wraps to 0 on the 2^32-th replacement. -/
theorem updIter_assets :
    ∀ n : Nat, (updIter (n + 1)).assets 0 = some ⟨(n + 1) % 4294967296, 7⟩
  | 0 => by
    show ((AssetStorage.empty Nat).update_asset 0 7).assets 0 = _
    rw [update_asset_assets, if_pos rfl]
    rfl
  | n + 1 => by
    show ((updIter (n + 1)).update_asset 0 7).assets 0 = _
    rw [update_asset_assets, if_pos rfl, updIter_assets n]
    show (some ⟨((n + 1) % 4294967296 + 1) % 4294967296, 7⟩ : Option (AssetState Nat))
        = some ⟨(n + 1 + 1) % 4294967296, 7⟩
    have hmod : ((n + 1) % 4294967296 + 1) % 4294967296 = (n + 1 + 1) % 4294967296 := by
      omega
    rw [hmod]

/-- Counterexample for C1 as stated: in the reachable storage whose slot 0
holds version `u32::MAX = 4294967295`, a further `update_asset` stores
version 0 (the `u32` counter wraps) — not `old + 1 = 4294967296`, and not
strictly greater than the previously returned version 4294967295. -/
theorem update_asset_wrap_counterexample :
    StorageReachable (updIter 4294967295) ∧
    (updIter 4294967295).get_version 0 = some 4294967295 ∧
    ((updIter 4294967295).update_asset 0 9).get_version 0 = some 0 ∧
    ¬ ((0 : Nat) = 4294967295 + 1) ∧ ¬ ((4294967295 : Nat) < 0) := by
  have h0 : (updIter 4294967295).assets 0 = some ⟨4294967295, 7⟩ := by
    have h := updIter_assets 4294967294
    norm_num at h
    exact h
  refine ⟨updIter_reachable 4294967295, ?_, ?_, by norm_num, by norm_num⟩
  · simp [AssetStorage.get_version, h0]
  · have h1 : ((updIter 4294967295).update_asset 0 9).assets 0 = some ⟨0, 9⟩ := by
      rw [update_asset_assets, if_pos rfl, h0]
      show (some ⟨(4294967295 + 1) % 4294967296, 9⟩ : Option (AssetState Nat)) = some ⟨0, 9⟩
      norm_num
    simp [AssetStorage.get_version, h1]

/-- C1 (amended for the `u32` wrap-around): `update_asset(handle, asset)`
moves the old asset (if any) to `to_drop` and inserts the new one with
version `(old + 1) mod 2^32` (else `1`); right after the call the slot is
loaded and `get` returns the new asset; and provided the handle has been
updated fewer than `2^32 - 1` times so far — so the `u32` counter has not
yet wrapped — the new version is strictly greater than any version
previously returned for that handle. -/
theorem update_asset_u32_spec {A : Type} (p : Tracked A)
    (hreach : TrackedReachable p) (handle : LoadHandle) (asset : A) :
    (p.storage.update_asset handle asset).is_loaded handle = true ∧
    (p.storage.update_asset handle asset).get handle = some asset ∧
    (p.storage.update_asset handle asset).get_version handle =
      some ((match p.storage.get_version handle with
             | some v => v + 1
             | none => 1) % 4294967296) ∧
    (match p.storage.assets handle with
     | some data =>
        (p.storage.update_asset handle asset).to_drop = p.storage.to_drop ++ [data.asset]
     | none => (p.storage.update_asset handle asset).to_drop = p.storage.to_drop) ∧
    (p.counts handle + 1 < 4294967296 →
      ∀ q : Tracked A, TrackedReachable q →
        Relation.ReflTransGen (TrackedStep A) q p →
        ∀ v : Nat, q.storage.get_version handle = some v →
        ∀ v' : Nat, (p.storage.update_asset handle asset).get_version handle = some v' →
        v < v') := by
  refine ⟨?_, ?_, ?_, ?_, ?_⟩
  · cases hrem : p.storage.assets handle with
    | some data => simp [AssetStorage.is_loaded, AssetStorage.update_asset, hrem]
    | none => simp [AssetStorage.is_loaded, AssetStorage.update_asset, hrem]
  · cases hrem : p.storage.assets handle with
    | some data => simp [AssetStorage.get, AssetStorage.update_asset, hrem]
    | none => simp [AssetStorage.get, AssetStorage.update_asset, hrem]
  · cases hrem : p.storage.assets handle with
    | some data => simp [AssetStorage.get_version, AssetStorage.update_asset, hrem]
    | none => simp [AssetStorage.get_version, AssetStorage.update_asset, hrem]
  · cases hrem : p.storage.assets handle with
    | some data => simp [AssetStorage.update_asset, hrem]
    | none => simp [AssetStorage.update_asset, hrem]
  · intro hlt q hq hqp v hv v' hv'
    obtain ⟨stq, hstq, hvq⟩ :
        ∃ stq : AssetState A, q.storage.assets handle = some stq ∧ stq.version = v := by
      cases hstq : q.storage.assets handle with
      | some stq =>
        refine ⟨stq, rfl, ?_⟩
        simpa [AssetStorage.get_version, hstq] using hv
      | none => simp [AssetStorage.get_version, hstq] at hv
    obtain ⟨h1q, h2q⟩ := (tracked_invariant q hq handle).2 stq hstq
    have hmono := trackedReach_counts_mono hqp handle
    have hinvp := tracked_invariant p hreach handle
    cases hrem : p.storage.assets handle with
    | some stp =>
      obtain ⟨h1p, h2p⟩ := hinvp.2 stp hrem
      have hcomp : (p.storage.update_asset handle asset).get_version handle
          = some ((stp.version + 1) % 4294967296) := by
        simp [AssetStorage.get_version, update_asset_assets, hrem]
      rw [hcomp, Option.some_inj] at hv'
      omega
    | none =>
      have hc0 := hinvp.1 hrem
      omega

/-- Witness for C1 (amended) at a concrete input: handle 3 has seen one
prior update, far below the wrap bound; the second update stores version 2,
strictly above the previously returned version 1. -/
theorem update_asset_u32_spec_witness :
    (((AssetStorage.empty Nat).update_asset 3 10).update_asset 3 20).is_loaded 3 = true ∧
    (((AssetStorage.empty Nat).update_asset 3 10).update_asset 3 20).get 3 = some 20 ∧
    (((AssetStorage.empty Nat).update_asset 3 10).update_asset 3 20).get_version 3 = some 2 ∧
    (1 : Nat) < 2 := by
  have hp : TrackedReachable
      (⟨(AssetStorage.empty Nat).update_asset 3 10,
        fun h' => if h' = 3 then 0 + 1 else 0⟩ : Tracked Nat) :=
    Relation.ReflTransGen.single
      (TrackedStep.update ⟨AssetStorage.empty Nat, fun _ => 0⟩ 3 10)
  have h := update_asset_u32_spec
    (⟨(AssetStorage.empty Nat).update_asset 3 10,
      fun h' => if h' = 3 then 0 + 1 else 0⟩ : Tracked Nat) hp 3 20
  have hb : ((AssetStorage.empty Nat).update_asset 3 10).assets 3 = some ⟨1, 10⟩ := by
    rw [update_asset_assets, if_pos rfl]
    rfl
  have hbefore : ((AssetStorage.empty Nat).update_asset 3 10).get_version 3 = some 1 := by
    simp [AssetStorage.get_version, hb]
  have hafter :
      (((AssetStorage.empty Nat).update_asset 3 10).update_asset 3 20).get_version 3
        = some 2 := by
    simp [AssetStorage.get_version, update_asset_assets, AssetStorage.empty]
  refine ⟨h.1, h.2.1, hafter, ?_⟩
  refine h.2.2.2.2 ?_ _ hp Relation.ReflTransGen.refl 1 hbefore 2 hafter
  show (if (3 : Nat) = 3 then 0 + 1 else 0) + 1 < 4294967296
  norm_num

/-- Counterexample for C9 as stated: the storage reached by 2^32
`update_asset` calls on handle 0 is reachable, yet slot 0 stores version 0 —
the `u32` counter has wrapped — so `version ≥ 1` does not hold in every
reachable state. -/
theorem storage_version_wrap_counterexample :
    StorageReachable (updIter 4294967296) ∧
    (updIter 4294967296).get_version 0 = some 0 ∧
    ¬ (∀ s : AssetStorage Nat, StorageReachable s →
        ∀ (h : LoadHandle) (st : AssetState Nat), s.assets h = some st →
          1 ≤ st.version) := by
  have h0 : (updIter 4294967296).assets 0 = some ⟨0, 7⟩ := by
    have h := updIter_assets 4294967295
    norm_num at h
    exact h
  refine ⟨updIter_reachable 4294967296, ?_, ?_⟩
  · simp [AssetStorage.get_version, h0]
  · intro hclaim
    have h1 := hclaim (updIter 4294967296) (updIter_reachable 4294967296) 0 ⟨0, 7⟩ h0
    have h2 : (⟨0, 7⟩ : AssetState Nat).version = 0 := rfl
    omega

/-- C9 (amended for the `u32` wrap-around): in every reachable state, an
occupied slot has been updated at least once and stores exactly its update
count modulo 2^32; in particular its version is at least 1 whenever the slot
has seen fewer than 2^32 updates. (At a positive multiple of 2^32 updates
the counter has wrapped to 0: `storage_version_wrap_counterexample`.) -/
theorem storage_version_mod_invariant {A : Type} (p : Tracked A)
    (hreach : TrackedReachable p) (h : LoadHandle) (st : AssetState A)
    (hst : p.storage.assets h = some st) :
    1 ≤ p.counts h ∧ st.version = p.counts h % 4294967296 ∧
    (p.counts h < 4294967296 → 1 ≤ st.version) := by
  obtain ⟨h1, h2⟩ := (tracked_invariant p hreach h).2 st hst
  refine ⟨h1, h2, ?_⟩
  intro hlt
  rw [h2, Nat.mod_eq_of_lt hlt]
  exact h1

/-- Witness for C9 (amended) at a concrete reachable tracked state: one
update on handle 5 gives version 1 and update count 1. -/
theorem storage_version_mod_invariant_witness :
    ((AssetStorage.empty Nat).update_asset 5 7).assets 5 = some ⟨1, 7⟩ ∧
    1 ≤ (AssetState.mk 1 (7 : Nat)).version := by
  have hassets : ((AssetStorage.empty Nat).update_asset 5 7).assets 5 = some ⟨1, 7⟩ := by
    rw [update_asset_assets, if_pos rfl]
    rfl
  have hp : TrackedReachable
      (⟨(AssetStorage.empty Nat).update_asset 5 7,
        fun h' => if h' = 5 then 0 + 1 else 0⟩ : Tracked Nat) :=
    Relation.ReflTransGen.single
      (TrackedStep.update ⟨AssetStorage.empty Nat, fun _ => 0⟩ 5 7)
  have h := storage_version_mod_invariant
    (⟨(AssetStorage.empty Nat).update_asset 5 7,
      fun h' => if h' = 5 then 0 + 1 else 0⟩ : Tracked Nat) hp 5 ⟨1, 7⟩ hassets
  exact ⟨hassets, h.2.2 (by norm_num)⟩

/-- C10: `update_asset(h, a)` leaves every other handle `h'` unchanged:
`get`, `get_mut`, `get_version`, `get_asset_with_version` and `is_loaded`
answer the same before and after, and the only asset possibly appended to
`to_drop` is the one that occupied `h`'s own slot. -/
theorem update_asset_frame {A : Type} (s : AssetStorage A) (h h' : LoadHandle)
    (a : A) (hne : h' ≠ h) :
    (s.update_asset h a).get h' = s.get h' ∧
    (s.update_asset h a).get_mut h' = s.get_mut h' ∧
    (s.update_asset h a).get_version h' = s.get_version h' ∧
    (s.update_asset h a).get_asset_with_version h' = s.get_asset_with_version h' ∧
    (s.update_asset h a).is_loaded h' = s.is_loaded h' ∧
    ((s.update_asset h a).to_drop = s.to_drop ∨
      ∃ st : AssetState A, s.assets h = some st ∧
        (s.update_asset h a).to_drop = s.to_drop ++ [st.asset]) := by
  refine ⟨?_, ?_, ?_, ?_, ?_, ?_⟩
  · simp [AssetStorage.get, AssetStorage.update_asset, hne]
  · simp [AssetStorage.get_mut, AssetStorage.update_asset, hne]
  · simp [AssetStorage.get_version, AssetStorage.update_asset, hne]
  · simp [AssetStorage.get_asset_with_version, AssetStorage.update_asset, hne]
  · simp [AssetStorage.is_loaded, AssetStorage.update_asset, hne]
  · cases hrem : s.assets h with
    | some data =>
      refine Or.inr ⟨data, rfl, ?_⟩
      rw [update_asset_to_drop, hrem]
    | none =>
      refine Or.inl ?_
      rw [update_asset_to_drop, hrem]

/-- Witness for C10 at a concrete input: updating handle 2 does not disturb
handle 3. -/
theorem update_asset_frame_witness :
    (((AssetStorage.empty Nat).update_asset 3 10).update_asset 2 99).get 3 =
      ((AssetStorage.empty Nat).update_asset 3 10).get 3 ∧
    (((AssetStorage.empty Nat).update_asset 3 10).update_asset 2 99).is_loaded 3 =
      ((AssetStorage.empty Nat).update_asset 3 10).is_loaded 3 := by
  have h := update_asset_frame ((AssetStorage.empty Nat).update_asset 3 10) 2 3 99
    (by decide)
  exact ⟨h.1, h.2.2.2.2.1⟩

/-!
Embedding of `src/amethyst_assets/src/processor.rs`.
Error payloads (`amethyst_assets::error::Error`) and tracker objects
(`Box<dyn Tracker>`) are opaque to the processing logic; both are modelled
as `Nat` identities.
-/

abbrev AssetError := Nat

abbrev TrackerId := Nat

/-- Rust `Processed<T>` (processor.rs lines 67-71):
`{ data: Result<T>, handle: LoadHandle, tracker: Option<Box<dyn Tracker>> }`. -/
structure Processed (T : Type) where
  data : Except AssetError T
  handle : LoadHandle
  tracker : Option TrackerId

/-- Rust `ProcessingState<D, A>` (processor.rs lines 74-80). -/
inductive ProcessingState (D A : Type)
  | Loading (d : D)
  | Loaded (a : A)
deriving DecidableEq, Repr

/-- Rust `ProcessingQueue<T>` (processor.rs lines 83-94): the FIFO `processed`
queue plus the `requeue` scratch list (empty between calls; `process` fully
drains it back into `processed` before returning). -/
structure ProcessingQueue (T : Type) where
  processed : List (Processed T)
  requeue : List (Processed T)

/-- Results of one `process` call, with ghost observation fields recording
the calls the drain loop makes. -/
structure ProcessOut (T A : Type) where
  storage : AssetStorage A
  /-- contents of the `requeue` list when the drain loop has finished -/
  requeue : List (Processed T)
  /-- arguments of each `storage.update_asset(&handle, asset)` call, in call
      order (ghost observation) -/
  updateCalls : List (LoadHandle × A)
  /-- the argument of each application of `f`, in order (ghost observation) -/
  applied : List T
  /-- tracker notifications made by the loop; every `tracker.success()` /
      `tracker.fail(..)` call in this loop is commented out in the source, so
      none is ever recorded (ghost observation) -/
  trackerReports : List TrackerId

/-- The drain loop of `ProcessingQueue::process` (processor.rs lines
119-195): pop entries in FIFO order; on `data.and_then(f)` being
`Ok(Loaded(x))` call `storage.update_asset(&handle, x)`; on `Ok(Loading(x))`
push `{ data: Ok(x), handle, tracker }` onto `requeue`; on `Err(_)` drop the
entry (the tracker-failure report at lines 176-190 is commented out, with a
`TODO` about communicating the failure to the loader). When `data` is already
`Err`, `and_then` short-circuits and `f` is not applied. -/
def processEntries {T A : Type} (f : T → Except AssetError (ProcessingState T A)) :
    List (Processed T) → AssetStorage A → ProcessOut T A
  | [], storage => ⟨storage, [], [], [], []⟩
  | e :: rest, storage =>
    match e.data with
    | .error _ =>
      processEntries f rest storage
    | .ok d =>
      match f d with
      | .ok (.Loaded x) =>
        let out := processEntries f rest (storage.update_asset e.handle x)
        ⟨out.storage, out.requeue, (e.handle, x) :: out.updateCalls,
          d :: out.applied, out.trackerReports⟩
      | .ok (.Loading x) =>
        let out := processEntries f rest storage
        ⟨out.storage, ⟨.ok x, e.handle, e.tracker⟩ :: out.requeue, out.updateCalls,
          d :: out.applied, out.trackerReports⟩
      | .error _ =>
        let out := processEntries f rest storage
        ⟨out.storage, out.requeue, out.updateCalls, d :: out.applied,
          out.trackerReports⟩

/-- Rust `ProcessingQueue::process` (processor.rs lines 107-201): run the drain
loop on the current queue contents, then push every requeue entry back onto
the (now empty) `processed` queue, in order, for the next call. -/
def ProcessingQueue.process {T A : Type} (q : ProcessingQueue T)
    (storage : AssetStorage A)
    (f : T → Except AssetError (ProcessingState T A)) :
    ProcessingQueue T × ProcessOut T A :=
  let out := processEntries f q.processed storage
  (⟨out.requeue.foldl (fun l p => l ++ [p]) [], []⟩, out)

/-- Rust `ProcessingQueue::enqueue` (processor.rs lines 99-105). -/
def ProcessingQueue.enqueue {T : Type} (q : ProcessingQueue T)
    (handle : LoadHandle) (data : T) : ProcessingQueue T :=
  { q with processed := q.processed ++ [⟨.ok data, handle, none⟩] }

/-- Re-pushing a drained list element by element reproduces the list. -/
theorem foldl_push_eq_append {α : Type} :
    ∀ (l acc : List α), l.foldl (fun q p => q ++ [p]) acc = acc ++ l
  | [], acc => by simp
  | p :: rest, acc => by
    rw [List.foldl_cons, foldl_push_eq_append rest (acc ++ [p])]
    simp

/-- Every `Ok`-data entry of the drained snapshot is dispatched according to
`f`: `Loaded` entries produce an `update_asset` call, `Loading` entries are
pushed onto the requeue list with the same handle and tracker. -/
theorem processEntries_mem {T A : Type}
    (f : T → Except AssetError (ProcessingState T A)) :
    ∀ (l : List (Processed T)) (storage : AssetStorage A) (e : Processed T),
      e ∈ l → ∀ d : T, e.data = .ok d →
      (∀ a : A, f d = .ok (.Loaded a) →
        (e.handle, a) ∈ (processEntries f l storage).updateCalls) ∧
      (∀ d' : T, f d = .ok (.Loading d') →
        (⟨.ok d', e.handle, e.tracker⟩ : Processed T) ∈
          (processEntries f l storage).requeue)
  | [], _, e, he, _, _ => absurd he (List.not_mem_nil e)
  | p :: rest, storage, e, he, d, hd => by
    rcases List.mem_cons.mp he with heq | hmem
    · subst heq
      constructor
      · intro a hfa
        simp [processEntries, hd, hfa]
      · intro d' hfd
        simp [processEntries, hd, hfd]
    · cases hpd : p.data with
      | error err =>
        have ih := processEntries_mem f rest storage e hmem d hd
        constructor
        · intro a hfa
          simpa [processEntries, hpd] using ih.1 a hfa
        · intro d' hfd
          simpa [processEntries, hpd] using ih.2 d' hfd
      | ok pd =>
        cases hf : f pd with
        | error err =>
          have ih := processEntries_mem f rest storage e hmem d hd
          constructor
          · intro a hfa
            simpa [processEntries, hpd, hf] using ih.1 a hfa
          · intro d' hfd
            simpa [processEntries, hpd, hf] using ih.2 d' hfd
        | ok ps =>
          cases ps with
          | Loaded x =>
            have ih := processEntries_mem f rest (storage.update_asset p.handle x)
              e hmem d hd
            constructor
            · intro a hfa
              simp only [processEntries, hpd, hf, List.mem_cons]
              exact Or.inr (ih.1 a hfa)
            · intro d' hfd
              simpa [processEntries, hpd, hf] using ih.2 d' hfd
          | Loading x =>
            have ih := processEntries_mem f rest storage e hmem d hd
            constructor
            · intro a hfa
              simpa [processEntries, hpd, hf] using ih.1 a hfa
            · intro d' hfd
              simp only [processEntries, hpd, hf, List.mem_cons]
              exact Or.inr (ih.2 d' hfd)

/-- C2: for every entry drained by `ProcessingQueue::process` whose data is
`Ok(d)`: if `f d = Loaded(a)` then `storage.update_asset(handle, a)` is
called for that entry's handle; if `f d = Loading(d')` then an entry with
data `Ok(d')`, the same handle and the same tracker is pushed onto the
requeue list; and after the drain the requeue list (in order) becomes the
queue for the next call, with the scratch list left empty. -/
theorem process_dispatch {T A : Type} (q : ProcessingQueue T)
    (storage : AssetStorage A)
    (f : T → Except AssetError (ProcessingState T A))
    (e : Processed T) (he : e ∈ q.processed) (d : T) (hd : e.data = .ok d) :
    (∀ a : A, f d = .ok (.Loaded a) →
      (e.handle, a) ∈ (q.process storage f).2.updateCalls) ∧
    (∀ d' : T, f d = .ok (.Loading d') →
      (⟨.ok d', e.handle, e.tracker⟩ : Processed T) ∈ (q.process storage f).2.requeue) ∧
    (q.process storage f).1.processed = (q.process storage f).2.requeue ∧
    (q.process storage f).1.requeue = [] := by
  have hmem := processEntries_mem f q.processed storage e he d hd
  refine ⟨hmem.1, hmem.2, ?_, rfl⟩
  show (processEntries f q.processed storage).requeue.foldl (fun l p => l ++ [p]) [] = _
  rw [foldl_push_eq_append]
  simp [ProcessingQueue.process]

/-- Witness for C2 at a concrete input: a queue holding one `Ok 4` entry for
handle 5 under an `f` that immediately loads, and one `Ok 6` entry for
handle 8 under which `f` stays loading. -/
theorem process_dispatch_witness :
    ((5 : Nat), (40 : Nat)) ∈
      ((ProcessingQueue.mk [⟨Except.ok 4, 5, none⟩, ⟨Except.ok 6, 8, some 2⟩] []).process
        (AssetStorage.empty Nat)
        (fun d => if d < 5 then Except.ok (ProcessingState.Loaded (10 * d))
                  else Except.ok (ProcessingState.Loading (d + 1)))).2.updateCalls ∧
    (⟨Except.ok 7, 8, some 2⟩ : Processed Nat) ∈
      ((ProcessingQueue.mk [⟨Except.ok 4, 5, none⟩, ⟨Except.ok 6, 8, some 2⟩] []).process
        (AssetStorage.empty Nat)
        (fun d => if d < 5 then Except.ok (ProcessingState.Loaded (10 * d))
                  else Except.ok (ProcessingState.Loading (d + 1)))).2.requeue := by
  constructor
  · exact (process_dispatch
      (ProcessingQueue.mk [⟨Except.ok 4, 5, none⟩, ⟨Except.ok 6, 8, some 2⟩] [])
      (AssetStorage.empty Nat)
      (fun d => if d < 5 then Except.ok (ProcessingState.Loaded (10 * d))
                else Except.ok (ProcessingState.Loading (d + 1)))
      ⟨Except.ok 4, 5, none⟩ (by simp) 4 rfl).1 40 (by norm_num)
  · exact ((process_dispatch
      (ProcessingQueue.mk [⟨Except.ok 4, 5, none⟩, ⟨Except.ok 6, 8, some 2⟩] [])
      (AssetStorage.empty Nat)
      (fun d => if d < 5 then Except.ok (ProcessingState.Loaded (10 * d))
                else Except.ok (ProcessingState.Loading (d + 1)))
      ⟨Except.ok 6, 8, some 2⟩ (by simp) 6 rfl).2).1 7 (by norm_num)

/-- The drain loop applies `f` to exactly the `Ok` payloads of the snapshot
it drained, each once, in FIFO order; requeued entries are not revisited. -/
theorem processEntries_applied {T A : Type}
    (f : T → Except AssetError (ProcessingState T A)) :
    ∀ (l : List (Processed T)) (storage : AssetStorage A),
      (processEntries f l storage).applied
        = l.filterMap (fun e => e.data.toOption)
  | [], _ => rfl
  | p :: rest, storage => by
    cases hpd : p.data with
    | error err =>
      simp [processEntries, hpd, processEntries_applied f rest storage, Except.toOption]
    | ok pd =>
      cases hf : f pd with
      | error err =>
        simp [processEntries, hpd, hf, processEntries_applied f rest storage,
          Except.toOption]
      | ok ps =>
        cases ps with
        | Loaded x =>
          simp [processEntries, hpd, hf,
            processEntries_applied f rest (storage.update_asset p.handle x),
            Except.toOption]
        | Loading x =>
          simp [processEntries, hpd, hf, processEntries_applied f rest storage,
            Except.toOption]

/-- C3: within one `process` call no entry is processed twice — `f` is
applied exactly once per `Ok`-data entry of the initial queue snapshot (in
FIFO order), requeued entries included only as output, and the requeue list
reaches the queue only after the drain loop has finished. -/
theorem process_no_entry_twice {T A : Type} (q : ProcessingQueue T)
    (storage : AssetStorage A)
    (f : T → Except AssetError (ProcessingState T A)) :
    (q.process storage f).2.applied
      = q.processed.filterMap (fun e => e.data.toOption) ∧
    (q.process storage f).1.processed = (q.process storage f).2.requeue := by
  constructor
  · exact processEntries_applied f q.processed storage
  · show (processEntries f q.processed storage).requeue.foldl (fun l p => l ++ [p]) [] = _
    rw [foldl_push_eq_append]
    simp [ProcessingQueue.process]

/-- The drain loop never notifies a tracker: all tracker calls in the source
loop are commented out. -/
theorem processEntries_no_tracker_report {T A : Type}
    (f : T → Except AssetError (ProcessingState T A)) :
    ∀ (l : List (Processed T)) (storage : AssetStorage A),
      (processEntries f l storage).trackerReports = []
  | [], _ => rfl
  | p :: rest, storage => by
    cases hpd : p.data with
    | error err =>
      simp [processEntries, hpd, processEntries_no_tracker_report f rest storage]
    | ok pd =>
      cases hf : f pd with
      | error err =>
        simp [processEntries, hpd, hf, processEntries_no_tracker_report f rest storage]
      | ok ps =>
        cases ps with
        | Loaded x =>
          simp [processEntries, hpd, hf,
            processEntries_no_tracker_report f rest (storage.update_asset p.handle x)]
        | Loading x =>
          simp [processEntries, hpd, hf, processEntries_no_tracker_report f rest storage]

/-- C4, evaluated at the failing input: a queue holding a single entry whose
data is `Err(0)` and whose tracker is `Some 7`. The entry is dropped (not
requeued) and the storage is untouched — but, contrary to the claim, no
tracker report is made: the `tracker.fail(..)` call in the source's error
branch (processor.rs lines 176-190) is commented out. -/
theorem process_error_entry_dropped_without_report :
    ((ProcessingQueue.mk [⟨Except.error 0, 5, some 7⟩] []).process
        (AssetStorage.empty Nat)
        (fun d => Except.ok (ProcessingState.Loaded d))).1.processed = ([] : List (Processed Nat)) ∧
    ((ProcessingQueue.mk [⟨Except.error 0, 5, some 7⟩] []).process
        (AssetStorage.empty Nat)
        (fun d => Except.ok (ProcessingState.Loaded d))).2.storage = AssetStorage.empty Nat ∧
    ((ProcessingQueue.mk [⟨Except.error 0, 5, some 7⟩] []).process
        (AssetStorage.empty Nat)
        (fun d => Except.ok (ProcessingState.Loaded d))).2.trackerReports = [] ∧
    ((ProcessingQueue.mk [⟨Except.error 0, 5, some 7⟩] []).process
        (AssetStorage.empty Nat)
        (fun d => Except.ok (ProcessingState.Loaded d))).2.updateCalls = [] :=
  ⟨rfl, rfl, rfl, rfl⟩

/-! Embedding of `src/amethyst_assets/src/new_loader.rs`. The 16-byte
`AssetUuid` and `AssetTypeId` values support equality and hashing only and
are modelled as `Nat`. -/

abbrev AssetUuid := Nat

abbrev AssetTypeId := Nat

/-- Operations a type-erased `&dyn AssetTypeStorage` view offers
(new_loader.rs lines 152-158), abstracted over the underlying typed storage
the registered `with_storage` closure yields. -/
structure AssetTypeStorageOps where
  allocate : Unit → Nat
  update_asset : Nat → List Nat → Except AssetError Unit
  is_loaded : Nat → Bool

/-- One entry of `AssetStorageMap::storages_by_data_uuid` (new_loader.rs
lines 188-212, 281-287): the registered type pair plus the capability the
`with_storage` closure exposes. -/
structure AssetTypeRecord where
  data_uuid : AssetTypeId
  asset_uuid : AssetTypeId
  ops : AssetTypeStorageOps

/-- State of `WorldStorages` (new_loader.rs lines 214-223) visible to the
type-erased operations: the registration map keyed by data type id. -/
structure WorldStorages where
  storages_by_data_uuid : AssetTypeId → Option AssetTypeRecord

/-- Implementation of `WorldStorages::allocate` (new_loader.rs lines
227-238): look up the registration and `.expect("could not find asset
type")`. `none` models the panic of the `expect`. -/
def WorldStorages.allocate (w : WorldStorages) (asset_type : AssetTypeId) :
    Option Nat :=
  match w.storages_by_data_uuid asset_type with
  | none => none
  | some r => some (r.ops.allocate ())

/-- Implementation of `WorldStorages::update_asset` (new_loader.rs lines
239-255); `none` models the panic of the `expect`. -/
def WorldStorages.update_asset (w : WorldStorages) (asset_type : AssetTypeId)
    (handle : Nat) (data : List Nat) : Option (Except AssetError Unit) :=
  match w.storages_by_data_uuid asset_type with
  | none => none
  | some r => some (r.ops.update_asset handle data)

/-- Implementation of `WorldStorages::is_loaded` (new_loader.rs lines
256-267); `none` models the panic of the `expect`. -/
def WorldStorages.is_loaded (w : WorldStorages) (asset_type : AssetTypeId)
    (handle : Nat) : Option Bool :=
  match w.storages_by_data_uuid asset_type with
  | none => none
  | some r => some (r.ops.is_loaded handle)

/-- Implementation of `WorldStorages::free` (new_loader.rs lines 268-279);
the underlying `AssetTypeStorage::free` just drops the moved handle, so the
successful outcome carries no data. `none` models the panic of the
`expect`. -/
def WorldStorages.free (w : WorldStorages) (asset_type : AssetTypeId)
    (_handle : Nat) : Option Unit :=
  match w.storages_by_data_uuid asset_type with
  | none => none
  | some _ => some ()

/-- Counterexample for C5 as stated: with no registration for the supplied
`data_type_id`, every type-erased operation panics (models the source's
`.expect("could not find asset type")`, new_loader.rs lines 225-280); none
of them follows a diagnostic-log-and-drop path. -/
theorem worldstorages_missing_type_counterexample :
    WorldStorages.allocate ⟨fun _ => none⟩ 0 = none ∧
    WorldStorages.update_asset ⟨fun _ => none⟩ 0 0 [] = none ∧
    WorldStorages.is_loaded ⟨fun _ => none⟩ 0 0 = none ∧
    WorldStorages.free ⟨fun _ => none⟩ 0 0 = none :=
  ⟨rfl, rfl, rfl, rfl⟩

/-- C5 (amended): when the import source supplies a `data_type_id` for which
no type registration exists, each of `allocate`, `update_asset`, `is_loaded`
and `free` on the type-erased storage view panics via
`.expect("could not find asset type")` before touching any storage; the
failure is a panic, not a diagnostic log with the entry dropped. -/
theorem worldstorages_missing_type_panics (w : WorldStorages)
    (t : AssetTypeId) (hmiss : w.storages_by_data_uuid t = none)
    (handle : Nat) (data : List Nat) :
    w.allocate t = none ∧ w.update_asset t handle data = none ∧
    w.is_loaded t handle = none ∧ w.free t handle = none := by
  refine ⟨?_, ?_, ?_, ?_⟩ <;>
    simp [WorldStorages.allocate, WorldStorages.update_asset,
      WorldStorages.is_loaded, WorldStorages.free, hmiss]

/-- Witness for C5 (amended) at a concrete input: the empty registration
map. -/
theorem worldstorages_missing_type_panics_witness :
    WorldStorages.update_asset ⟨fun _ => none⟩ 3 7 [1, 2] = none :=
  (worldstorages_missing_type_panics ⟨fun _ => none⟩ 3 rfl 7 [1, 2]).2.1

/-- Reference-count operations (`RefOp`, new_loader.rs lines 69-72). -/
inductive RefOp
  | Increase (id : AssetUuid)
  | Decrease (id : AssetUuid)
deriving DecidableEq, Repr

/-- Asset id an operation refers to. -/
def RefOp.asset_id : RefOp → AssetUuid
  | .Increase id => id
  | .Decrease id => id

/-- State of `LoaderWithStorage` (new_loader.rs lines 74-79) visible to
`get_asset_handle`: the underlying atelier loader's asset table
(`loader.get_asset(id)` yields the resolved data type uuid and the shared
handle), the registration map, and the ref-op channel. -/
structure LoaderWithStorage where
  loader_assets : AssetUuid → Option (AssetTypeId × Nat)
  storages_by_data_uuid : AssetTypeId → Option AssetTypeRecord
  ref_channel : List RefOp

/-- Implementation of `LoaderWithStorage::get_asset_handle::<A>`
(new_loader.rs lines 101-119); `asset_type` stands for `A::UUID`. Returns
the state after the call (the method takes `&self` and sends nothing, so it
is returned unchanged), the optional handle, and whether a warning was
logged. -/
def LoaderWithStorage.get_asset_handle (L : LoaderWithStorage)
    (asset_type : AssetTypeId) (id : AssetUuid) :
    LoaderWithStorage × Option Nat × Bool :=
  match L.loader_assets id with
  | some (data_type, asset_handle) =>
    match L.storages_by_data_uuid data_type with
    | some storage_type =>
      if asset_type ≠ storage_type.asset_uuid then (L, none, true)
      else (L, some asset_handle, false)
    | none => (L, none, true)
  | none => (L, none, false)

/-- C6: when the registered `asset_type_id` for the asset's resolved data
type differs from the requesting type's compile-time id, `get_asset_handle`
returns `None`, logs a warning, and leaves the loader state — storages and
ref-op channel included — untouched. -/
theorem get_asset_handle_type_mismatch (L : LoaderWithStorage)
    (asset_type : AssetTypeId) (id : AssetUuid) (data_type : AssetTypeId)
    (arc : Nat) (st : AssetTypeRecord)
    (hget : L.loader_assets id = some (data_type, arc))
    (hst : L.storages_by_data_uuid data_type = some st)
    (hne : asset_type ≠ st.asset_uuid) :
    L.get_asset_handle asset_type id = (L, none, true) := by
  simp [LoaderWithStorage.get_asset_handle, hget, hst, hne]

/-- Witness for C6 at a concrete input: type 1 requested, type 2
registered. -/
theorem get_asset_handle_type_mismatch_witness :
    LoaderWithStorage.get_asset_handle
      ⟨fun _ => some (4, 9),
       fun _ => some ⟨4, 2, ⟨fun _ => 0, fun _ _ => Except.ok (), fun _ => false⟩⟩,
       []⟩ 1 6
    = (⟨fun _ => some (4, 9),
        fun _ => some ⟨4, 2, ⟨fun _ => 0, fun _ _ => Except.ok (), fun _ => false⟩⟩,
        []⟩, none, true) :=
  get_asset_handle_type_mismatch _ 1 6 4 9
    ⟨4, 2, ⟨fun _ => 0, fun _ _ => Except.ok (), fun _ => false⟩⟩ rfl rfl (by decide)

/-- Loader-side effect of forwarding one ref-op (`loader.add_asset_ref` /
`loader.decrease_asset_ref`). -/
def applyRefOp (counts : AssetUuid → Int) : RefOp → AssetUuid → Int
  | RefOp.Increase id => fun i => if i = id then counts i + 1 else counts i
  | RefOp.Decrease id => fun i => if i = id then counts i - 1 else counts i

/-- Drain loop at the top of `LoaderWithStorage::process` (new_loader.rs
lines 139-146): `try_recv` until the FIFO channel is empty, forwarding
`Increase(id)` to `loader.add_asset_ref(id)` and `Decrease(id)` to
`loader.decrease_asset_ref(id)`. Returns the resulting counts, the forwarded
operations in forwarding order (ghost observation), and the channel contents
left behind. -/
def drainRefOps : List RefOp → (AssetUuid → Int) →
    ((AssetUuid → Int) × List RefOp × List RefOp)
  | [], counts => (counts, [], [])
  | op :: rest, counts =>
    let next := drainRefOps rest (applyRefOp counts op)
    (next.1, op :: next.2.1, next.2.2)

/-- Sender side (`add_asset_ref` / `decrease_asset_ref`, new_loader.rs lines
95-100): a send appends the operation to the FIFO channel. -/
def sendRefOp (chan : List RefOp) (op : RefOp) : List RefOp := chan ++ [op]

/-- C7: the ref-op drain inside `process` consumes the whole channel,
forwards every operation exactly once in FIFO (send) order — hence, for each
single `AssetId`, in the exact order the operations were sent — and applies
them to the loader counts in that order. -/
theorem process_refops_fifo (chan : List RefOp) (counts : AssetUuid → Int) :
    (drainRefOps chan counts).2.1 = chan ∧
    (drainRefOps chan counts).2.2 = [] ∧
    (drainRefOps chan counts).1 = chan.foldl applyRefOp counts ∧
    ∀ id : AssetUuid,
      (drainRefOps chan counts).2.1.filter (fun op => op.asset_id = id)
        = chan.filter (fun op => op.asset_id = id) := by
  induction chan generalizing counts with
  | nil => exact ⟨rfl, rfl, rfl, fun _ => rfl⟩
  | cons op rest ih =>
    obtain ⟨h1, h2, h3, _⟩ := ih (applyRefOp counts op)
    refine ⟨?_, ?_, ?_, ?_⟩
    · simp [drainRefOps, h1]
    · simp [drainRefOps, h2]
    · simp [drainRefOps, h3]
    · intro id
      simp [drainRefOps, h1]

/-!
Embedding of the strong/weak handle model of
`src/amethyst_assets/src/storage.rs` (lines 352-427). A `Handle<A>` owns an
`Arc<u32>`; `WeakHandle<A>` holds the matching `Weak<u32>`. The `Arc`/`Weak`
runtime (Rust std) is modelled by the multiset of live strong references per
allocation cell: `Weak::upgrade` returns a fresh strong reference exactly
when the cell's strong count is positive, which is exactly when some live
strong handle shares the cell.
-/

/-- Strong `Handle<A>` (storage.rs lines 352-356), identified by its
`Arc<u32>` allocation cell. -/
structure Handle where
  cell : Nat
deriving DecidableEq, Repr

/-- Weak `WeakHandle<A>` (storage.rs lines 405-410), identified by the cell
of the `Arc` it observes. -/
structure WeakHandle where
  cell : Nat
deriving DecidableEq, Repr

/-- Live strong references: one list entry per live strong handle (original
and clones), holding its cell. -/
structure ArcState where
  live : List Nat
deriving DecidableEq, Repr

/-- Rust `Arc::strong_count` for a cell: the number of live strong
references to it. -/
def ArcState.strong_count (s : ArcState) (cell : Nat) : Nat :=
  s.live.count cell

/-- Cloning a handle (derived `Clone` on the `Arc<u32>` field): a new strong
reference to the same cell. -/
def Handle.clone (s : ArcState) (h : Handle) : ArcState × Handle :=
  ({ live := h.cell :: s.live }, ⟨h.cell⟩)

/-- Dropping a strong handle removes one strong reference to its cell. -/
def Handle.drop_strong (s : ArcState) (h : Handle) : ArcState :=
  { live := s.live.erase h.cell }

/-- Implementation of `Handle::downgrade` (storage.rs lines 371-379):
`Arc::downgrade`, constant time, strong count unchanged. -/
def Handle.downgrade (h : Handle) : WeakHandle := ⟨h.cell⟩

/-- Implementation of `WeakHandle::upgrade` (storage.rs lines 413-420):
`Weak::upgrade` succeeds iff the cell's strong count is positive, yielding a
strong handle to the same cell. -/
def WeakHandle.upgrade (s : ArcState) (w : WeakHandle) : Option Handle :=
  if 0 < s.strong_count w.cell then some ⟨w.cell⟩ else none

/-- Implementation of `WeakHandle::is_dead` (storage.rs lines 422-426):
`self.upgrade().is_none()`. -/
def WeakHandle.is_dead (s : ArcState) (w : WeakHandle) : Bool :=
  (w.upgrade s).isNone

/-- C8: for a weak handle obtained by downgrading a strong handle, `upgrade`
succeeds iff at least one live strong handle shares the same underlying
cell (equivalently, iff the strong count is positive); once every strong
handle to that cell is gone, `upgrade` returns `none` and `is_dead` is
`true`. -/
theorem weak_upgrade_iff (s : ArcState) (h : Handle) :
    (((h.downgrade).upgrade s).isSome = true ↔ h.cell ∈ s.live) ∧
    (((h.downgrade).upgrade s).isSome = true ↔ 0 < s.strong_count h.cell) ∧
    (h.cell ∉ s.live →
      (h.downgrade).upgrade s = none ∧ (h.downgrade).is_dead s = true) := by
  have hcount : 0 < s.strong_count h.cell ↔ h.cell ∈ s.live := by
    simp [ArcState.strong_count, List.count_pos_iff]
  refine ⟨?_, ?_, ?_⟩
  · rw [← hcount]
    constructor
    · intro hs
      by_contra hc
      simp [WeakHandle.upgrade, Handle.downgrade, Nat.pos_iff_ne_zero] at hs hc
      omega
    · intro hpos
      simp [WeakHandle.upgrade, Handle.downgrade, hpos]
  · constructor
    · intro hs
      by_contra hc
      simp [WeakHandle.upgrade, Handle.downgrade, Nat.pos_iff_ne_zero] at hs hc
      omega
    · intro hpos
      simp [WeakHandle.upgrade, Handle.downgrade, hpos]
  · intro hnot
    have hzero : ¬ 0 < s.strong_count h.cell := by
      rw [hcount]
      exact hnot
    constructor
    · simp [WeakHandle.upgrade, Handle.downgrade, hzero]
    · simp [WeakHandle.is_dead, WeakHandle.upgrade, Handle.downgrade, hzero]

/-- Witness for C8 at concrete states: with one live strong handle on cell 3
the downgraded handle upgrades; with none it is dead. -/
theorem weak_upgrade_iff_witness :
    ((Handle.downgrade ⟨3⟩).upgrade ⟨[3]⟩).isSome = true ∧
    (Handle.downgrade ⟨3⟩).upgrade ⟨[]⟩ = none ∧
    (Handle.downgrade ⟨3⟩).is_dead ⟨[]⟩ = true := by
  refine ⟨?_, ?_, ?_⟩
  · exact (weak_upgrade_iff ⟨[3]⟩ ⟨3⟩).1.mpr (by simp)
  · exact ((weak_upgrade_iff ⟨[]⟩ ⟨3⟩).2.2 (by simp)).1
  · exact ((weak_upgrade_iff ⟨[]⟩ ⟨3⟩).2.2 (by simp)).2

end Amethyst
